import Mathlib

/-!
# Verification of the erddap-predeployment-checks registry pipeline

This file embeds, in Lean 4, the data model and operations of the
erddap_deploy package: the CLI driver (src/erddap_deploy/__main__.py) and
the Registry Engine it calls (the Erddap class: load, copy, diff, secret
merge and serialization).  The engine itself is not part of the provided
sources, so its definitions are modelled from the specification, as marked
in their doc comments; the CLI driver definitions are translated directly
from the Python source.
-/

set_option autoImplicit false

/-- Modelled from the spec: a dataset attribute value is a tagged union over
scalar strings and nested structured blocks (ordered key/value children).
The engine code (erddap_deploy.erddap) is not in the provided sources. -/
inductive AttrValue where
  | scalar : String → AttrValue
  | block : List (String × AttrValue) → AttrValue

mutual

/-- Structural (deep) equality test on attribute values. -/
def AttrValue.decEq : (a b : AttrValue) → Decidable (a = b)
  | .scalar s, .scalar t =>
    if h : s = t then .isTrue (by rw [h]) else .isFalse (by intro hh; cases hh; exact h rfl)
  | .scalar _, .block _ => .isFalse (fun hh => AttrValue.noConfusion hh)
  | .block _, .scalar _ => .isFalse (fun hh => AttrValue.noConfusion hh)
  | .block xs, .block ys =>
    match attrsDecEq xs ys with
    | .isTrue h => .isTrue (by rw [h])
    | .isFalse h => .isFalse (by intro hh; cases hh; exact h rfl)

/-- Structural equality test on ordered attribute mappings. -/
def attrsDecEq : (xs ys : List (String × AttrValue)) → Decidable (xs = ys)
  | [], [] => .isTrue rfl
  | [], _ :: _ => .isFalse (fun hh => List.noConfusion hh)
  | _ :: _, [] => .isFalse (fun hh => List.noConfusion hh)
  | (k, v) :: xs, (l, w) :: ys =>
    if hk : k = l then
      match AttrValue.decEq v w with
      | .isTrue hv =>
        match attrsDecEq xs ys with
        | .isTrue ht => .isTrue (by rw [hk, hv, ht])
        | .isFalse ht => .isFalse (by intro hh; cases hh; exact ht rfl)
      | .isFalse hv => .isFalse (by intro hh; cases hh; exact hv rfl)
    else .isFalse (by intro hh; cases hh; exact hk rfl)

end

instance : DecidableEq AttrValue := AttrValue.decEq

/-- Modelled from the spec: one served data feed — a unique identifier, a
type discriminator, and an ordered mapping of configuration attributes. -/
structure Dataset where
  datasetId : String
  typ : String
  attrs : List (String × AttrValue)
deriving DecidableEq

/-- Modelled from the spec: the root aggregate — an ordered sequence of
Dataset entries plus a mapping of top-level server settings. -/
structure Registry where
  datasets : List Dataset
  settings : List (String × AttrValue)
deriving DecidableEq

/-- First value stored under key k in an ordered attribute mapping. -/
def attrLookup (attrs : List (String × AttrValue)) (k : String) : Option AttrValue :=
  (attrs.find? (fun kv => kv.1 = k)).map (fun kv => kv.2)

/-- Keys of an ordered attribute mapping, in insertion order. -/
def attrKeys (attrs : List (String × AttrValue)) : List String :=
  attrs.map (fun kv => kv.1)

/-- A well-formed attribute mapping has no duplicate keys. -/
def AttrsWF (attrs : List (String × AttrValue)) : Prop :=
  (attrKeys attrs).Nodup

/-- Dataset identifiers of a registry, in stored order. -/
def registryIds (R : Registry) : List String :=
  R.datasets.map (fun d => d.datasetId)

/-- Registry invariant: dataset identifiers are unique, and every dataset
has a duplicate-free attribute mapping. -/
def Registry.WF (R : Registry) : Prop :=
  (registryIds R).Nodup ∧ ∀ d ∈ R.datasets, AttrsWF d.attrs

/-- First dataset with the given identifier. -/
def findDataset (R : Registry) (id : String) : Option Dataset :=
  R.datasets.find? (fun d => d.datasetId = id)

instance attrsWFDecidable (attrs : List (String × AttrValue)) : Decidable (AttrsWF attrs) :=
  inferInstanceAs (Decidable ((attrKeys attrs).Nodup))

instance registryWFDecidable (R : Registry) : Decidable R.WF :=
  inferInstanceAs (Decidable ((registryIds R).Nodup ∧ ∀ d ∈ R.datasets, AttrsWF d.attrs))

/-- Modelled from the spec: one dataset configuration block as it appears in
a document — identifier, type discriminator and ordered attributes; both the
monolithic document and each fragment encode the same block grammar. -/
structure DatasetBlock where
  blockId : String
  typ : String
  attrs : List (String × AttrValue)
deriving DecidableEq

/-- Modelled from the spec: the normalized document tree the Loader produces
and the Serializer renders — top-level settings plus dataset blocks. -/
structure Document where
  topSettings : List (String × AttrValue)
  blocks : List DatasetBlock
deriving DecidableEq

/-- Modelled from the spec: the Serializer renders the Registry back into
the document grammar, preserving dataset order and attribute order. -/
def render (R : Registry) : Document :=
  { topSettings := R.settings
    blocks := R.datasets.map (fun d => { blockId := d.datasetId, typ := d.typ, attrs := d.attrs }) }

/-- Modelled from the spec: key-by-key attribute merge with the later
fragment winning per key; existing keys keep their position, new keys are
appended in order. -/
def mergeAttrs (old new : List (String × AttrValue)) : List (String × AttrValue) :=
  old.map (fun kv =>
    match attrLookup new kv.1 with
    | some v => (kv.1, v)
    | none => kv) ++
  new.filter (fun kv => attrLookup old kv.1 = none)

/-- Modelled from the spec: fold one dataset block into the accumulating
Registry — unseen identifiers are appended preserving first-seen order,
attributes of a dataset seen again are merged with the later value winning. -/
def insertBlock (R : Registry) (blk : DatasetBlock) : Registry :=
  if (R.datasets.any (fun d => d.datasetId = blk.blockId)) then
    { R with datasets := R.datasets.map (fun d =>
        if d.datasetId = blk.blockId then
          { d with typ := blk.typ, attrs := mergeAttrs d.attrs blk.attrs }
        else d) }
  else
    { R with datasets := R.datasets ++ [{ datasetId := blk.blockId, typ := blk.typ, attrs := blk.attrs }] }

/-- Modelled from the spec: fold a whole parsed document into an
accumulating Registry (settings merged, then each block in order). -/
def loadDocInto (R : Registry) (doc : Document) : Registry :=
  doc.blocks.foldl insertBlock { R with settings := mergeAttrs R.settings doc.topSettings }

/-- The empty Registry a load starts from. -/
def emptyRegistry : Registry := { datasets := [], settings := [] }

/-- Modelled from the spec: the Document Loader on the monolithic form —
extract the dataset blocks and top-level settings of one document and fold
them into a fresh Registry. -/
def load (doc : Document) : Registry :=
  loadDocInto emptyRegistry doc

theorem attrLookup_nil (k : String) : attrLookup [] k = none := rfl

theorem mergeAttrs_nil (new : List (String × AttrValue)) : mergeAttrs [] new = new := by
  simp [mergeAttrs, attrLookup_nil]

/-- Folding blocks with fresh, pairwise-distinct identifiers into a Registry
appends one dataset per block, in block order. -/
theorem foldl_insertBlock_fresh (blocks : List DatasetBlock) (acc : Registry)
    (hfresh : ∀ b ∈ blocks, ∀ d ∈ acc.datasets, d.datasetId ≠ b.blockId)
    (hnodup : (blocks.map (fun b => b.blockId)).Nodup) :
    blocks.foldl insertBlock acc =
      { acc with datasets := acc.datasets ++
          blocks.map (fun b => { datasetId := b.blockId, typ := b.typ, attrs := b.attrs }) } := by
  induction blocks generalizing acc with
  | nil => simp
  | cons b rest ih =>
    have hb : (acc.datasets.any (fun d => d.datasetId = b.blockId)) = false := by
      simp only [List.any_eq_false, decide_eq_true_eq]
      intro d hd
      exact hfresh b (by simp) d hd
    have hstep : insertBlock acc b =
        { acc with datasets := acc.datasets ++
            [{ datasetId := b.blockId, typ := b.typ, attrs := b.attrs }] } := by
      simp [insertBlock, hb]
    rw [List.foldl_cons, hstep]
    rw [ih]
    · simp
    · intro b2 hb2 d hd
      rcases List.mem_append.mp hd with hacc | hnew
      · exact hfresh b2 (by simp [hb2]) d hacc
      · simp only [List.mem_singleton] at hnew
        subst hnew
        simp only [List.map_cons, List.nodup_cons] at hnodup
        intro heq
        have heq2 : b.blockId = b2.blockId := heq
        exact hnodup.1 (by rw [heq2]; exact List.mem_map_of_mem (fun b => b.blockId) hb2)
    · simp only [List.map_cons, List.nodup_cons] at hnodup
      exact hnodup.2

theorem dataset_eta (d : Dataset) :
    ({ datasetId := d.datasetId, typ := d.typ, attrs := d.attrs } : Dataset) = d := rfl

/-- C1: for every Registry satisfying the unique-identifier invariant,
loading the document produced by rendering it yields the same Registry —
same dataset order, same attribute order, same values. -/
theorem load_render_roundtrip (R : Registry) (h : (registryIds R).Nodup) :
    load (render R) = R := by
  have hacc : load (render R) =
      (render R).blocks.foldl insertBlock { datasets := [], settings := R.settings } := by
    simp [load, loadDocInto, emptyRegistry, render, mergeAttrs_nil]
  rw [hacc, foldl_insertBlock_fresh]
  · simp only [render, List.map_map, List.nil_append]
    have hid : ((fun b : DatasetBlock =>
        ({ datasetId := b.blockId, typ := b.typ, attrs := b.attrs } : Dataset)) ∘
        (fun d : Dataset =>
          ({ blockId := d.datasetId, typ := d.typ, attrs := d.attrs } : DatasetBlock))) = id := by
      funext d
      rfl
    rw [hid, List.map_id]
  · intro b hb d hd
    simp at hd
  · simp only [render, List.map_map]
    have hid : ((fun b : DatasetBlock => b.blockId) ∘
        (fun d : Dataset =>
          ({ blockId := d.datasetId, typ := d.typ, attrs := d.attrs } : DatasetBlock))) =
        fun d : Dataset => d.datasetId := by
      funext d
      rfl
    rw [hid]
    exact h

/-- A concrete dataset with a nested block attribute, used as witness
data. -/
def buoyDataset : Dataset :=
  { datasetId := "buoy1", typ := "EDDTableFromAsciiFiles",
    attrs := [("srcUrl", AttrValue.scalar "http://a"),
              ("creds", AttrValue.block [("user", AttrValue.scalar "u")])] }

/-- A concrete two-dataset registry, with a nested block attribute, used
as witness data. -/
def sampleRegistry : Registry :=
  { datasets :=
      [buoyDataset,
       { datasetId := "cruise_2020", typ := "EDDGridFromNcFiles",
         attrs := [("active", AttrValue.scalar "true")] }],
    settings := [("bigParentDirectory", AttrValue.scalar "/erddapData")] }

/-- Witness for C1: the concrete registry round-trips through render and
load. -/
theorem load_render_roundtrip_witness :
    (registryIds sampleRegistry).Nodup ∧ load (render sampleRegistry) = sampleRegistry :=
  ⟨by decide, load_render_roundtrip sampleRegistry (by decide)⟩

/-- Modelled from the spec: the result of comparing one dataset between two
snapshots — added, removed and changed attributes plus total add/remove
markers. -/
structure DatasetDiff where
  addedAttrs : List (String × AttrValue)
  removedAttrs : List (String × AttrValue)
  changedAttrs : List (String × AttrValue × AttrValue)
  fullyAdded : Bool
  fullyRemoved : Bool
deriving DecidableEq

/-- Modelled from the spec: the overall changed flag — true when the dataset
was wholly added or removed, or any attribute set is non-empty. -/
def DatasetDiff.changed (d : DatasetDiff) : Bool :=
  d.fullyAdded || d.fullyRemoved ||
    !d.addedAttrs.isEmpty || !d.removedAttrs.isEmpty || !d.changedAttrs.isEmpty

/-- Modelled from the spec: attribute-wise comparison of one dataset present
in both snapshots — symmetric key difference plus key-wise structural value
inequality. -/
def attrsDiff (before after : Dataset) : DatasetDiff :=
  { addedAttrs := after.attrs.filter (fun kv => attrLookup before.attrs kv.1 = none)
    removedAttrs := before.attrs.filter (fun kv => attrLookup after.attrs kv.1 = none)
    changedAttrs := before.attrs.filterMap (fun kv =>
      match attrLookup after.attrs kv.1 with
      | some v => if v = kv.2 then none else some (kv.1, kv.2, v)
      | none => none)
    fullyAdded := false
    fullyRemoved := false }

/-- Modelled from the spec: a dataset present only in the before snapshot is
reported as fully removed. -/
def removedDiff (d : Dataset) : DatasetDiff :=
  { addedAttrs := [], removedAttrs := d.attrs, changedAttrs := [],
    fullyAdded := false, fullyRemoved := true }

/-- Modelled from the spec: a dataset present only in the after snapshot is
reported as fully added. -/
def addedDiff (d : Dataset) : DatasetDiff :=
  { addedAttrs := d.attrs, removedAttrs := [], changedAttrs := [],
    fullyAdded := true, fullyRemoved := false }

/-- An all-empty DatasetDiff (unreachable branch of the union fold). -/
def emptyDatasetDiff : DatasetDiff :=
  { addedAttrs := [], removedAttrs := [], changedAttrs := [],
    fullyAdded := false, fullyRemoved := false }

/-- Union of the dataset identifiers of two snapshots, before order first. -/
def unionIds (before after : Registry) : List String :=
  registryIds before ++
    (registryIds after).filter (fun i => ¬ (i ∈ registryIds before))

/-- Modelled from the spec: the per-identifier case split of the diff. -/
def diffEntry (before after : Registry) (id : String) : DatasetDiff :=
  match findDataset before id, findDataset after id with
  | some a, some b => attrsDiff a b
  | some a, none => removedDiff a
  | none, some b => addedDiff b
  | none, none => emptyDatasetDiff

/-- Modelled from the spec: diff of two Registry snapshots — one DatasetDiff
per identifier in the union of both identifier sets. -/
def registryDiff (before after : Registry) : List (String × DatasetDiff) :=
  (unionIds before after).map (fun id => (id, diffEntry before after id))

/-- With duplicate-free keys, looking up the key of a stored pair returns
exactly its stored value. -/
theorem attrLookup_self (attrs : List (String × AttrValue)) (hwf : AttrsWF attrs)
    (kv : String × AttrValue) (hmem : kv ∈ attrs) : attrLookup attrs kv.1 = some kv.2 := by
  induction attrs with
  | nil => cases hmem
  | cons hd tl ih =>
    rcases List.mem_cons.mp hmem with heq | htl
    · subst heq
      simp [attrLookup, List.find?_cons]
    · have hne : hd.1 ≠ kv.1 := by
        have : kv.1 ∈ attrKeys tl := List.mem_map_of_mem (fun p => p.1) htl
        intro heq
        have hnotin : hd.1 ∉ attrKeys tl := by
          have := hwf
          simp only [AttrsWF, attrKeys, List.map_cons, List.nodup_cons] at this
          exact this.1
        exact hnotin (heq ▸ this)
      have hwtl : AttrsWF tl := by
        simp only [AttrsWF, attrKeys, List.map_cons, List.nodup_cons] at hwf
        exact hwf.2
      simp only [attrLookup, List.find?_cons]
      have : (decide (hd.1 = kv.1)) = false := by
        simp [hne]
      rw [this]
      exact ih hwtl htl

/-- A pair stored in an attribute mapping always has a lookup hit on its
key. -/
theorem attrLookup_isSome (attrs : List (String × AttrValue))
    (kv : String × AttrValue) (hmem : kv ∈ attrs) : attrLookup attrs kv.1 ≠ none := by
  induction attrs with
  | nil => cases hmem
  | cons hd tl ih =>
    rcases List.mem_cons.mp hmem with heq | htl
    · subst heq
      simp [attrLookup, List.find?_cons]
    · by_cases hh : hd.1 = kv.1
      · simp [attrLookup, List.find?_cons, hh]
      · simp only [attrLookup, List.find?_cons]
        have : (decide (hd.1 = kv.1)) = false := by simp [hh]
        rw [this]
        exact ih htl

/-- Diffing a dataset against itself yields an all-empty DatasetDiff. -/
theorem attrsDiff_self (d : Dataset) (hwf : AttrsWF d.attrs) :
    (attrsDiff d d).changed = false := by
  have hadd : (attrsDiff d d).addedAttrs = [] := by
    simp only [attrsDiff]
    rw [List.filter_eq_nil_iff]
    intro kv hkv
    simp only [decide_eq_true_eq]
    exact attrLookup_isSome d.attrs kv hkv
  have hrem : (attrsDiff d d).removedAttrs = [] := by
    simp only [attrsDiff]
    rw [List.filter_eq_nil_iff]
    intro kv hkv
    simp only [decide_eq_true_eq]
    exact attrLookup_isSome d.attrs kv hkv
  have hchg : (attrsDiff d d).changedAttrs = [] := by
    simp only [attrsDiff]
    rw [List.filterMap_eq_nil_iff]
    intro kv hkv
    rw [attrLookup_self d.attrs hwf kv hkv]
    simp
  have hfa : (attrsDiff d d).fullyAdded = false := rfl
  have hfr : (attrsDiff d d).fullyRemoved = false := rfl
  rw [DatasetDiff.changed, hadd, hrem, hchg, hfa, hfr]
  rfl

/-- C2: diff of two well-formed snapshots covers exactly the union of their
dataset identifiers; an identifier present in exactly one snapshot is marked
fully removed (before only) or fully added (after only); an identifier whose
dataset is structurally identical in both snapshots never carries
changed = true. -/
theorem registryDiff_complete (A B : Registry) (hA : Registry.WF A) (_hB : Registry.WF B) :
    ((registryDiff A B).map Prod.fst = unionIds A B) ∧
    (∀ id, id ∈ unionIds A B ↔ (id ∈ registryIds A ∨ id ∈ registryIds B)) ∧
    (∀ id, id ∈ registryIds A → id ∉ registryIds B →
        (id, diffEntry A B id) ∈ registryDiff A B ∧
        (diffEntry A B id).fullyRemoved = true ∧ (diffEntry A B id).fullyAdded = false) ∧
    (∀ id, id ∉ registryIds A → id ∈ registryIds B →
        (id, diffEntry A B id) ∈ registryDiff A B ∧
        (diffEntry A B id).fullyAdded = true ∧ (diffEntry A B id).fullyRemoved = false) ∧
    (∀ id d e, findDataset A id = some d → findDataset B id = some d →
        (id, e) ∈ registryDiff A B → e.changed = false) := by
  refine ⟨?_, ?_, ?_, ?_, ?_⟩
  · rw [registryDiff, List.map_map]
    have hcomp : (Prod.fst ∘ fun id => (id, diffEntry A B id)) = fun id : String => id := rfl
    rw [hcomp]
    exact List.map_id (unionIds A B)
  · intro id
    simp only [unionIds, List.mem_append, List.mem_filter, decide_eq_true_eq]
    tauto
  · intro id hidA hidB
    have hmem : id ∈ unionIds A B := List.mem_append.mpr (Or.inl hidA)
    obtain ⟨d, hd, hdid⟩ := List.mem_map.mp hidA
    have hfindA : ∃ a, findDataset A id = some a := by
      have : (A.datasets.find? (fun d => d.datasetId = id)).isSome := by
        rw [List.find?_isSome]
        exact ⟨d, hd, by simp [hdid]⟩
      exact Option.isSome_iff_exists.mp this
    have hfindB : findDataset B id = none := by
      rw [findDataset, List.find?_eq_none]
      intro x hx
      simp only [decide_eq_true_eq]
      intro heq
      exact hidB (heq ▸ List.mem_map_of_mem (fun d => d.datasetId) hx)
    obtain ⟨a, ha⟩ := hfindA
    refine ⟨List.mem_map_of_mem (fun id => (id, diffEntry A B id)) hmem, ?_, ?_⟩
    · rw [diffEntry, ha, hfindB]
      rfl
    · rw [diffEntry, ha, hfindB]
      rfl
  · intro id hidA hidB
    have hmem : id ∈ unionIds A B := by
      apply List.mem_append.mpr
      refine Or.inr (List.mem_filter.mpr ⟨hidB, by simp [hidA]⟩)
    obtain ⟨d, hd, hdid⟩ := List.mem_map.mp hidB
    have hfindB : ∃ b, findDataset B id = some b := by
      have : (B.datasets.find? (fun d => d.datasetId = id)).isSome := by
        rw [List.find?_isSome]
        exact ⟨d, hd, by simp [hdid]⟩
      exact Option.isSome_iff_exists.mp this
    have hfindA : findDataset A id = none := by
      rw [findDataset, List.find?_eq_none]
      intro x hx
      simp only [decide_eq_true_eq]
      intro heq
      exact hidA (heq ▸ List.mem_map_of_mem (fun d => d.datasetId) hx)
    obtain ⟨b, hb⟩ := hfindB
    refine ⟨List.mem_map_of_mem (fun id => (id, diffEntry A B id)) hmem, ?_, ?_⟩
    · rw [diffEntry, hfindA, hb]
      rfl
    · rw [diffEntry, hfindA, hb]
      rfl
  · intro id d e hfA hfB hmem
    obtain ⟨i, _, heq⟩ := List.mem_map.mp hmem
    have hi : i = id := congrArg Prod.fst heq
    have he : e = diffEntry A B id := by
      have := congrArg Prod.snd heq
      simp only at this
      rw [← this, hi]
    have hent : diffEntry A B id = attrsDiff d d := by
      rw [diffEntry, hfA, hfB]
    have hdmem : d ∈ A.datasets := List.mem_of_find?_eq_some hfA
    have hwf : AttrsWF d.attrs := hA.2 d hdmem
    rw [he, hent]
    exact attrsDiff_self d hwf

/-- The cruise dataset shared by both witness snapshots. -/
def cruiseDataset : Dataset :=
  { datasetId := "cruise_2020", typ := "EDDGridFromNcFiles",
    attrs := [("active", AttrValue.scalar "true")] }

/-- A second concrete snapshot: keeps cruise_2020 unchanged, drops buoy1,
adds glider9. -/
def sampleRegistryB : Registry :=
  { datasets :=
      [cruiseDataset,
       { datasetId := "glider9", typ := "EDDTableFromNcFiles",
         attrs := [("depth", AttrValue.scalar "100")] }],
    settings := [("bigParentDirectory", AttrValue.scalar "/erddapData")] }

/-- Witness for C2 on concrete snapshots: buoy1 (only in before) is fully
removed, glider9 (only in after) is fully added, and the identical
cruise_2020 is not flagged changed. -/
theorem registryDiff_complete_witness :
    Registry.WF sampleRegistry ∧ Registry.WF sampleRegistryB ∧
    (diffEntry sampleRegistry sampleRegistryB "buoy1").fullyRemoved = true ∧
    (diffEntry sampleRegistry sampleRegistryB "glider9").fullyAdded = true ∧
    (diffEntry sampleRegistry sampleRegistryB "cruise_2020").changed = false :=
  ⟨by decide, by decide,
   ((registryDiff_complete sampleRegistry sampleRegistryB (by decide) (by decide)).2.2.1 "buoy1"
      (by decide) (by decide)).2.1,
   ((registryDiff_complete sampleRegistry sampleRegistryB (by decide) (by decide)).2.2.2.1 "glider9"
      (by decide) (by decide)).2.1,
   (registryDiff_complete sampleRegistry sampleRegistryB (by decide) (by decide)).2.2.2.2
      "cruise_2020" cruiseDataset (diffEntry sampleRegistry sampleRegistryB "cruise_2020")
      (by decide) (by decide) (by decide)⟩

/-- Modelled from the spec: a structured secret — target dataset identifier,
target attribute name, and the secret value (the structured encoding of an
ERDDAP_SECRET_[datasetId]_[attrName] environment key). -/
structure Secret where
  targetDataset : String
  targetAttr : String
  value : String
deriving DecidableEq

/-- Modelled from the spec: overlay one secret value onto a matching
attribute entry, leaving the key and all other entries alone. -/
def overlayAttr (s : Secret) (kv : String × AttrValue) : String × AttrValue :=
  if kv.1 = s.targetAttr then (kv.1, AttrValue.scalar s.value) else kv

/-- Modelled from the spec: overlay one secret onto the matching dataset of
a registry copy; non-matching datasets are untouched. -/
def overlayDataset (s : Secret) (d : Dataset) : Dataset :=
  if d.datasetId = s.targetDataset then
    { d with attrs := d.attrs.map (overlayAttr s) }
  else d

/-- Modelled from the spec: apply one secret across a registry copy. -/
def applySecret (R : Registry) (s : Secret) : Registry :=
  { R with datasets := R.datasets.map (overlayDataset s) }

/-- Modelled from the spec: apply a whole secrets mapping in order, each to
a copy — never to the canonical registry. -/
def applySecrets (R : Registry) (secrets : List Secret) : Registry :=
  secrets.foldl applySecret R

/-- Modelled from the spec: the engine-visible state — the canonical
in-memory Registry plus the fragment source files it was loaded from. -/
structure EngineState where
  registry : Registry
  fragmentFiles : List (String × Document)
deriving DecidableEq

/-- Modelled from the spec: serialization with secrets (Erddap.to_xml with a
secrets mapping) — renders the secret overlay of a copy of the canonical
registry and returns the output document; the canonical registry and the
fragment source files are not written to. -/
def toXmlWithSecrets (st : EngineState) (secrets : List Secret) : EngineState × Document :=
  (st, render (applySecrets st.registry secrets))

/-- First dataset block of a document carrying the given identifier. -/
def findBlock (doc : Document) (id : String) : Option DatasetBlock :=
  doc.blocks.find? (fun b => b.blockId = id)

theorem overlayDataset_id (s : Secret) (d : Dataset) :
    (overlayDataset s d).datasetId = d.datasetId := by
  unfold overlayDataset
  split <;> rfl

theorem findDataset_applySecret (R : Registry) (s : Secret) (id : String) :
    findDataset (applySecret R s) id = (findDataset R id).map (overlayDataset s) := by
  unfold findDataset applySecret
  rw [List.find?_map]
  have hpred : ((fun d : Dataset => decide (d.datasetId = id)) ∘ overlayDataset s) =
      fun d : Dataset => decide (d.datasetId = id) := by
    funext d
    simp [Function.comp, overlayDataset_id]
  rw [hpred]

theorem overlayAttr_key (s : Secret) (kv : String × AttrValue) :
    (overlayAttr s kv).1 = kv.1 := by
  unfold overlayAttr
  split <;> rfl

theorem attrLookup_overlay_hit (s : Secret) (attrs : List (String × AttrValue))
    (hattr : attrLookup attrs s.targetAttr ≠ none) :
    attrLookup (attrs.map (overlayAttr s)) s.targetAttr = some (AttrValue.scalar s.value) := by
  unfold attrLookup at hattr ⊢
  rw [List.find?_map]
  have hpred : ((fun kv : String × AttrValue => decide (kv.1 = s.targetAttr)) ∘ overlayAttr s) =
      fun kv : String × AttrValue => decide (kv.1 = s.targetAttr) := by
    funext kv
    simp [Function.comp, overlayAttr_key]
  rw [hpred]
  obtain ⟨kv0, hkv0⟩ : ∃ kv0, attrs.find? (fun kv => kv.1 = s.targetAttr) = some kv0 := by
    cases hfind : attrs.find? (fun kv => kv.1 = s.targetAttr) with
    | none => exact absurd (by rw [hfind]; rfl) hattr
    | some kv0 => exact ⟨kv0, rfl⟩
  have hkey : kv0.1 = s.targetAttr := by
    have := List.find?_some hkv0
    simpa using this
  rw [hkv0]
  simp [overlayAttr, hkey]

theorem findBlock_render (R : Registry) (id : String) :
    findBlock (render R) id =
      (findDataset R id).map
        (fun d => { blockId := d.datasetId, typ := d.typ, attrs := d.attrs }) := by
  unfold findBlock render findDataset
  rw [List.find?_map]
  have hpred : ((fun b : DatasetBlock => decide (b.blockId = id)) ∘
      (fun d : Dataset => ({ blockId := d.datasetId, typ := d.typ, attrs := d.attrs } : DatasetBlock))) =
      fun d : Dataset => decide (d.datasetId = id) := by
    funext d
    rfl
  rw [hpred]

/-- Datasets targeted by no secret of the mapping are looked up unchanged in
the serialization copy. -/
theorem applySecrets_untargeted (secrets : List Secret) (id : String) :
    ∀ (R : Registry), (∀ s ∈ secrets, s.targetDataset ≠ id) →
      findDataset (applySecrets R secrets) id = findDataset R id := by
  induction secrets with
  | nil =>
    intro R _
    rfl
  | cons s rest ih =>
    intro R h
    have hstep : applySecrets R (s :: rest) = applySecrets (applySecret R s) rest := rfl
    rw [hstep, ih (applySecret R s) (fun t ht => h t (List.mem_cons_of_mem s ht))]
    rw [findDataset_applySecret]
    cases hfind : findDataset R id with
    | none => rfl
    | some d =>
      have hid : d.datasetId = id := by
        have := List.find?_some hfind
        simpa using this
      have hno : overlayDataset s d = d := by
        unfold overlayDataset
        rw [if_neg]
        rw [hid]
        intro hc
        exact h s (List.mem_cons_self s rest) hc.symm
      simp [hno]

/-- C3: serialization with secrets leaves the engine state — the canonical
in-memory Registry and the fragment source files — unchanged for every
secrets mapping; the rendered output alone is built from the secret overlay
of a copy, a matched secret value appears in the output document, and
datasets targeted by no secret are looked up unchanged in the copy. -/
theorem mergeSecrets_isolation (st : EngineState) (secrets : List Secret) :
    (toXmlWithSecrets st secrets).1 = st ∧
    (toXmlWithSecrets st secrets).2 = render (applySecrets st.registry secrets) ∧
    (∀ s d, secrets = [s] →
        findDataset st.registry s.targetDataset = some d →
        attrLookup d.attrs s.targetAttr ≠ none →
        findBlock (toXmlWithSecrets st secrets).2 s.targetDataset =
          some { blockId := d.datasetId, typ := d.typ,
                 attrs := d.attrs.map (overlayAttr s) } ∧
        attrLookup (d.attrs.map (overlayAttr s)) s.targetAttr =
          some (AttrValue.scalar s.value)) ∧
    (∀ id, (∀ s ∈ secrets, s.targetDataset ≠ id) →
        findDataset (applySecrets st.registry secrets) id = findDataset st.registry id) := by
  refine ⟨rfl, rfl, ?_, ?_⟩
  · intro s d hs hfind hattr
    subst hs
    have h1 : applySecrets st.registry [s] = applySecret st.registry s := rfl
    constructor
    · show findBlock (render (applySecrets st.registry [s])) s.targetDataset = _
      rw [h1, findBlock_render, findDataset_applySecret, hfind]
      have hid : d.datasetId = s.targetDataset := by
        have := List.find?_some hfind
        simpa using this
      have hov : overlayDataset s d = { d with attrs := d.attrs.map (overlayAttr s) } := by
        unfold overlayDataset
        rw [if_pos hid]
      simp [hov]
    · exact attrLookup_overlay_hit s d.attrs hattr
  · intro id h
    exact applySecrets_untargeted secrets id st.registry h

/-- The concrete secret used as witness data. -/
def sampleSecret : Secret :=
  { targetDataset := "buoy1", targetAttr := "srcUrl", value := "p@ss" }

/-- Witness for C3: with a concrete registry and one secret, the engine
state survives serialization unchanged, the secret value lands in the buoy1
block of the output, and the untargeted cruise_2020 dataset is untouched in
the copy. -/
theorem mergeSecrets_isolation_witness :
    (toXmlWithSecrets { registry := sampleRegistry, fragmentFiles := [] } [sampleSecret]).1 =
      { registry := sampleRegistry, fragmentFiles := [] } ∧
    findBlock (toXmlWithSecrets { registry := sampleRegistry, fragmentFiles := [] }
        [sampleSecret]).2 "buoy1" =
      some { blockId := buoyDataset.datasetId, typ := buoyDataset.typ,
             attrs := buoyDataset.attrs.map (overlayAttr sampleSecret) } ∧
    attrLookup (buoyDataset.attrs.map (overlayAttr sampleSecret)) "srcUrl" =
      some (AttrValue.scalar "p@ss") ∧
    findDataset (applySecrets sampleRegistry [sampleSecret]) "cruise_2020" =
      findDataset sampleRegistry "cruise_2020" := by
  have h := mergeSecrets_isolation { registry := sampleRegistry, fragmentFiles := [] } [sampleSecret]
  refine ⟨h.1, ?_, ?_, ?_⟩
  · exact (h.2.2.1 sampleSecret buoyDataset rfl (by decide) (by decide)).1
  · exact (h.2.2.1 sampleSecret buoyDataset rfl (by decide) (by decide)).2
  · exact h.2.2.2 "cruise_2020" (by decide)

/-- The fixed secret-variable name marker of the save command. -/
def secretMarker : String := "ERDDAP_SECRET_"

/-- Translated from src/erddap_deploy/__main__.py save (lines 89-93): the
Python test key.startswith("ERDDAP_SECRET_"), as a character-list test. -/
def startsWithSecretMarker (k : String) : Bool :=
  secretMarker.data.isPrefixOf k.data

/-- Translated from src/erddap_deploy/__main__.py save (lines 89-93): the
dict comprehension keeping exactly the environment variables whose names
start with ERDDAP_SECRET_, in environment order. -/
def saveScanSecrets (env : List (String × String)) : List (String × String) :=
  env.filter (fun kv => startsWithSecretMarker kv.1)

/-- Translated from src/erddap_deploy/__main__.py save (line 96): the save
command passes the scanned mapping — and nothing else of the environment —
to the engine serialization call; decoding raw keys into structured secrets
belongs to the engine and is abstracted as a parameter. -/
def savePipeline (st : EngineState) (decode : String × String → Option Secret)
    (env : List (String × String)) : EngineState × Document :=
  toXmlWithSecrets st ((saveScanSecrets env).filterMap decode)

/-- C4: the save command scans the environment for exactly the variables
whose names start with ERDDAP_SECRET_ and hands that mapping to the engine
serialization call; the serialization outcome depends on the environment
only through that scan. -/
theorem save_secrets_scan (env : List (String × String)) :
    (∀ kv : String × String,
        kv ∈ saveScanSecrets env ↔ kv ∈ env ∧ startsWithSecretMarker kv.1 = true) ∧
    (∀ (st : EngineState) (decode : String × String → Option Secret)
        (env2 : List (String × String)),
        saveScanSecrets env2 = saveScanSecrets env →
        savePipeline st decode env2 = savePipeline st decode env) := by
  constructor
  · intro kv
    simp [saveScanSecrets, List.mem_filter]
  · intro st decode env2 h
    unfold savePipeline
    rw [h]

/-- Witness for C4: a concrete environment — the prefixed variable is kept,
and replacing an unrelated variable leaves the save call unchanged. -/
theorem save_secrets_scan_witness :
    (("ERDDAP_SECRET_buoy1_password", "p@ss") ∈
        saveScanSecrets [("PATH", "/usr/bin"), ("ERDDAP_SECRET_buoy1_password", "p@ss")] ↔
      ("ERDDAP_SECRET_buoy1_password", "p@ss") ∈
          ([("PATH", "/usr/bin"), ("ERDDAP_SECRET_buoy1_password", "p@ss")] :
            List (String × String)) ∧
        startsWithSecretMarker "ERDDAP_SECRET_buoy1_password" = true) ∧
    savePipeline { registry := sampleRegistry, fragmentFiles := [] } (fun _ => none)
        [("HOME", "/root"), ("ERDDAP_SECRET_buoy1_password", "p@ss")] =
      savePipeline { registry := sampleRegistry, fragmentFiles := [] } (fun _ => none)
        [("PATH", "/usr/bin"), ("ERDDAP_SECRET_buoy1_password", "p@ss")] :=
  ⟨(save_secrets_scan [("PATH", "/usr/bin"), ("ERDDAP_SECRET_buoy1_password", "p@ss")]).1 _,
   (save_secrets_scan [("PATH", "/usr/bin"), ("ERDDAP_SECRET_buoy1_password", "p@ss")]).2
      { registry := sampleRegistry, fragmentFiles := [] } (fun _ => none)
      [("HOME", "/root"), ("ERDDAP_SECRET_buoy1_password", "p@ss")] (by decide)⟩

/-- The fragment sources as git materializes them: content visible before
the pull and content visible once the pull has run. -/
structure GitRepo where
  prePullDoc : Document
  postPullDoc : Document
deriving DecidableEq

/-- The observable operations of the sync command body, one per statement of
src/erddap_deploy/__main__.py lines 137-147. -/
inductive SyncEvent where
  | checkout (branch : String)
  | copyRegistry
  | pull
  | reloadRegistry
  | computeDiff
deriving DecidableEq

/-- The mutable state the sync command threads: the live registry, the deep
snapshot, the repository position, and the computed diff. -/
structure SyncState where
  live : Registry
  snapshot : Option Registry
  branch : Option String
  pulled : Bool
  diffResult : Option (List (String × DatasetDiff))
deriving DecidableEq

/-- Translated from src/erddap_deploy/__main__.py sync: the effect of each
statement.  A reload re-runs the Loader against the fragment sources as they
currently stand — post-pull content exactly when the pull already ran. -/
def syncStep (repo : GitRepo) (st : SyncState) : SyncEvent → SyncState
  | .checkout b => { st with branch := some b }
  | .copyRegistry => { st with snapshot := some st.live }
  | .pull => { st with pulled := true }
  | .reloadRegistry =>
    { st with live := load (if st.pulled then repo.postPullDoc else repo.prePullDoc) }
  | .computeDiff =>
    { st with diffResult := st.snapshot.map (fun snap => registryDiff snap st.live) }

/-- Translated from src/erddap_deploy/__main__.py sync lines 137-147, in
statement order: checkout branch, copy the live registry, pull, reload the
live registry in place, diff against the snapshot. -/
def syncProgram (branch : String) : List SyncEvent :=
  [.checkout branch, .copyRegistry, .pull, .reloadRegistry, .computeDiff]

/-- Run the sync command body from the state main left behind. -/
def runSync (repo : GitRepo) (live : Registry) (branch : String) : SyncState :=
  (syncProgram branch).foldl (syncStep repo)
    { live := live, snapshot := none, branch := none, pulled := false, diffResult := none }

/-- C6: in sync, the deep snapshot is taken before the pull, the reload runs
after the pull and therefore reads the post-pull fragment content, and the
diff compares the post-reload registry against the pre-pull snapshot. -/
theorem sync_snapshot_pull_reload_diff (repo : GitRepo) (live : Registry) (branch : String) :
    (runSync repo live branch).snapshot = some live ∧
    (runSync repo live branch).pulled = true ∧
    (runSync repo live branch).live = load repo.postPullDoc ∧
    (runSync repo live branch).diffResult =
      some (registryDiff live (load repo.postPullDoc)) :=
  ⟨rfl, rfl, rfl, rfl⟩

/-- Translated from src/erddap_deploy/__main__.py sync lines 149-152: the
registry is re-serialized exactly when any per-dataset diff entry is truthy
(a DatasetDiff with any content). -/
def syncWroteXml (st : SyncState) : Bool :=
  match st.diffResult with
  | some diff => diff.any (fun kv => kv.2.changed)
  | none => false

/-- Translated from src/erddap_deploy/__main__.py sync lines 154-158: with
the hard-flag option on, the loop writes one empty marker file named by the
dataset identifier for EVERY entry of the diff mapping — it does not filter
on the per-dataset diff. -/
def syncFlagFiles (hard_flag : Bool) (st : SyncState) : List (String × String) :=
  if hard_flag then
    match st.diffResult with
    | some diff => diff.map (fun kv => (kv.1, ""))
    | none => []
  else []

/-- C10: sync re-serializes datasets.xml exactly when the computed diff has
at least one truthy per-dataset entry; an all-falsy diff writes nothing. -/
theorem sync_to_xml_guard (repo : GitRepo) (live : Registry) (branch : String) :
    (syncWroteXml (runSync repo live branch) = true ↔
      ∃ kv ∈ registryDiff live (load repo.postPullDoc), kv.2.changed = true) ∧
    ((∀ kv ∈ registryDiff live (load repo.postPullDoc), kv.2.changed = false) →
      syncWroteXml (runSync repo live branch) = false) := by
  have hdiff : (runSync repo live branch).diffResult =
      some (registryDiff live (load repo.postPullDoc)) := rfl
  constructor
  · rw [syncWroteXml, hdiff]
    simp [List.any_eq_true]
  · intro hall
    rw [syncWroteXml, hdiff]
    simp only [List.any_eq_false]
    intro kv hkv
    simp [hall kv hkv]

/-- The repository state witness: the pull leaves the fragments identical to
what the live registry already holds. -/
def unchangedRepo : GitRepo :=
  { prePullDoc := render sampleRegistry, postPullDoc := render sampleRegistry }

/-- Witness for C10: with a pull that changes nothing, every diff entry is
falsy and no serialization happens. -/
theorem sync_to_xml_guard_witness :
    (∀ kv ∈ registryDiff sampleRegistry (load (render sampleRegistry)), kv.2.changed = false) ∧
    syncWroteXml (runSync unchangedRepo sampleRegistry "main") = false :=
  ⟨by decide, (sync_to_xml_guard unchangedRepo sampleRegistry "main").2 (by decide)⟩

/-- C5 (code bug evaluation): with the hard-flag option on and a pull that
changes nothing, every per-dataset entry of the diff is unchanged, yet the
sync loop emits one marker file per entry — buoy1 and cruise_2020 both get
markers although neither changed, where the claim requires none at all. -/
theorem sync_hard_flag_writes_unchanged :
    (∀ kv ∈ registryDiff sampleRegistry (load (render sampleRegistry)), kv.2.changed = false) ∧
    syncFlagFiles true (runSync unchangedRepo sampleRegistry "main") =
      [("buoy1", ""), ("cruise_2020", "")] :=
  ⟨by decide, by decide⟩

/-- Translated from src/erddap_deploy/__main__.py main lines 60-68: the two
ways an Erddap object can be constructed. -/
inductive ErddapSource where
  | fromGlob (pattern : String) (recursive : Bool)
  | fromXml (path : String)
deriving DecidableEq

/-- What main leaves in the click context object: the erddap value (None
when no source was found) and whether the no-source error was logged. -/
structure MainContext where
  erddap : Option ErddapSource
  loggedNoDatasetsError : Bool
deriving DecidableEq

/-- Translated from src/erddap_deploy/__main__.py main lines 60-80: a truthy
(non-empty) datasets_d always wins; otherwise the monolithic file is used
when it exists; otherwise an error is logged and erddap is None — in every
branch the function falls through to ctx.obj.update. -/
def mainRun (datasets_xml datasets_d : String) (recursive : Bool)
    (xmlExists : Bool) : MainContext :=
  if datasets_d ≠ "" then
    { erddap := some (.fromGlob datasets_d recursive), loggedNoDatasetsError := false }
  else if xmlExists then
    { erddap := some (.fromXml datasets_xml), loggedNoDatasetsError := false }
  else
    { erddap := none, loggedNoDatasetsError := true }

/-- The control outcome of running main: either the process terminated, or
command processing continued with the context main built. -/
inductive MainOutcome where
  | exited (code : Nat) (message : String)
  | continued (ctx : MainContext)
deriving DecidableEq

/-- Whether the outcome is a process termination. -/
def MainOutcome.isExit : MainOutcome → Bool
  | .exited _ _ => true
  | .continued _ => false

/-- Translated from src/erddap_deploy/__main__.py main lines 60-80: main has
no exit path — every branch, the no-source one included, continues into
ctx.ensure_object and ctx.obj.update. -/
def mainOutcome (datasets_xml datasets_d : String) (recursive : Bool)
    (xmlExists : Bool) : MainOutcome :=
  MainOutcome.continued (mainRun datasets_xml datasets_d recursive xmlExists)

/-- Translated from the subcommand bodies (save line 96, sync line 142-143):
each dereferences ctx.obj["erddap"]; on None this raises AttributeError. -/
def derefErddap : Option ErddapSource → Except String ErddapSource
  | none => Except.error "AttributeError: NoneType object has no attribute"
  | some e => Except.ok e

/-- C9: a non-empty datasets-d glob (its default included) always selects
the glob source, regardless of whether the monolithic file exists; the
monolithic file is used only when datasets-d is empty and the file exists;
otherwise erddap is None and every subcommand dereference fails. -/
theorem main_source_selection (datasets_xml datasets_d : String) (recursive : Bool)
    (xmlExists : Bool) :
    (datasets_d ≠ "" →
      mainRun datasets_xml datasets_d recursive xmlExists =
        { erddap := some (.fromGlob datasets_d recursive), loggedNoDatasetsError := false }) ∧
    (datasets_d = "" → xmlExists = true →
      mainRun datasets_xml datasets_d recursive xmlExists =
        { erddap := some (.fromXml datasets_xml), loggedNoDatasetsError := false }) ∧
    (datasets_d = "" → xmlExists = false →
      mainRun datasets_xml datasets_d recursive xmlExists =
        { erddap := none, loggedNoDatasetsError := true } ∧
      derefErddap (mainRun datasets_xml datasets_d recursive xmlExists).erddap =
        Except.error "AttributeError: NoneType object has no attribute") := by
  refine ⟨?_, ?_, ?_⟩
  · intro h
    rw [mainRun, if_pos h]
  · intro h hx
    rw [mainRun, if_neg (by simp [h]), if_pos hx]
  · intro h hx
    rw [mainRun, if_neg (by simp [h]), hx]
    exact ⟨rfl, rfl⟩

/-- Witness for C9: with the default glob "datasets.d/*.xml" the glob source
is selected even though the monolithic file exists; with an empty glob the
monolithic file is selected when it exists. -/
theorem main_source_selection_witness :
    mainRun "/usr/local/tomcat/content/erddap/datasets.xml" "datasets.d/*.xml" true true =
      { erddap := some (.fromGlob "datasets.d/*.xml" true), loggedNoDatasetsError := false } ∧
    mainRun "/usr/local/tomcat/content/erddap/datasets.xml" "" true true =
      { erddap := some (.fromXml "/usr/local/tomcat/content/erddap/datasets.xml"),
        loggedNoDatasetsError := false } :=
  ⟨(main_source_selection "/usr/local/tomcat/content/erddap/datasets.xml" "datasets.d/*.xml"
      true true).1 (by decide),
   (main_source_selection "/usr/local/tomcat/content/erddap/datasets.xml" "" true true).2.1
      rfl rfl⟩

/-- Counterexample for C8: when no readable source document is found
(empty datasets-d and a missing monolithic file), main does NOT terminate —
it continues command processing, leaving a None erddap in the context; the
claimed non-zero-exit-with-message behaviour is absent. -/
theorem main_no_exit_on_missing_source :
    mainOutcome "/usr/local/tomcat/content/erddap/datasets.xml" "" true false =
      MainOutcome.continued { erddap := none, loggedNoDatasetsError := true } ∧
    (mainOutcome "/usr/local/tomcat/content/erddap/datasets.xml" "" true false).isExit =
      false :=
  ⟨rfl, rfl⟩

/-- C8 (amended): when no readable source document is found, the CLI logs an
error but continues command processing with a None registry; a subcommand
that then dereferences the registry fails instead of proceeding. -/
theorem main_missing_source_continues (datasets_xml : String) (recursive : Bool) :
    (mainOutcome datasets_xml "" recursive false).isExit = false ∧
    (mainRun datasets_xml "" recursive false).loggedNoDatasetsError = true ∧
    (mainRun datasets_xml "" recursive false).erddap = none ∧
    derefErddap (mainRun datasets_xml "" recursive false).erddap =
      Except.error "AttributeError: NoneType object has no attribute" :=
  ⟨rfl, rfl, rfl, rfl⟩

mutual

/-- A deterministic byte rendering of one attribute value. -/
def AttrValue.renderValue : AttrValue → String
  | .scalar s => s
  | .block kvs => "(" ++ renderAttrsString kvs ++ ")"

/-- A deterministic byte rendering of an ordered attribute mapping. -/
def renderAttrsString : List (String × AttrValue) → String
  | [] => ""
  | (k, v) :: rest => k ++ "=" ++ AttrValue.renderValue v ++ ";" ++ renderAttrsString rest

end

/-- A deterministic byte rendering of one dataset block. -/
def renderBlockString (b : DatasetBlock) : String :=
  "<dataset id=" ++ b.blockId ++ " type=" ++ b.typ ++ ">" ++
    renderAttrsString b.attrs ++ "</dataset>"

/-- Modelled from the spec: the output document as bytes — settings then the
dataset blocks in stored order. -/
def docBytes (doc : Document) : String :=
  "<erddapDatasets>" ++ renderAttrsString doc.topSettings ++
    String.join (doc.blocks.map renderBlockString) ++ "</erddapDatasets>"

/-- Fragment files ordered lexicographically by path characters, the sort
key of the Loader. -/
def keyLe (a b : String × Document) : Prop := a.1.data ≤ b.1.data

/-- Strict path order on fragment files. -/
def keyLt (a b : String × Document) : Prop := a.1.data < b.1.data

instance : DecidableRel keyLe :=
  fun a b => inferInstanceAs (Decidable (a.1.data ≤ b.1.data))

instance : IsTotal (String × Document) keyLe :=
  ⟨fun a b => le_total a.1.data b.1.data⟩

instance : IsTrans (String × Document) keyLe :=
  ⟨fun _ _ _ hab hbc => le_trans hab hbc⟩

instance : IsAntisymm (String × Document) keyLt :=
  ⟨fun _ _ h1 h2 => ((lt_asymm h1) h2).elim⟩

/-- Modelled from the spec: the glob result is sorted lexicographically by
path before merging. -/
def sortFragments (files : List (String × Document)) : List (String × Document) :=
  List.insertionSort keyLe files

/-- Modelled from the spec: the Document Loader on a fragment set — sort the
matched files by path, then fold each parsed document into the accumulating
Registry in that order. -/
def loadFragments (files : List (String × Document)) : Registry :=
  (sortFragments files).foldl (fun R pd => loadDocInto R pd.2) emptyRegistry

theorem pairwise_and {α : Type} {R S : α → α → Prop} :
    ∀ {l : List α}, l.Pairwise R → l.Pairwise S → l.Pairwise (fun a b => R a b ∧ S a b) := by
  intro l
  induction l with
  | nil =>
    intro _ _
    exact List.Pairwise.nil
  | cons a l ih =>
    intro hR hS
    rw [List.pairwise_cons] at hR hS ⊢
    exact ⟨fun b hb => ⟨hR.1 b hb, hS.1 b hb⟩, ih hR.2 hS.2⟩

theorem string_data_inj (s t : String) (h : s.data = t.data) : s = t := by
  cases s
  cases t
  exact congrArg String.mk h

/-- Two enumerations of the same fragment set (same path-document pairs,
duplicate-free paths) sort to the same list. -/
theorem sortFragments_eq_of_perm (e1 e2 : List (String × Document))
    (hperm : e1.Perm e2) (hnodup : (e1.map Prod.fst).Nodup) :
    sortFragments e1 = sortFragments e2 := by
  have hp1 : List.Perm (sortFragments e1) e1 := List.perm_insertionSort keyLe e1
  have hp2 : List.Perm (sortFragments e2) e2 := List.perm_insertionSort keyLe e2
  have hperm12 : List.Perm (sortFragments e1) (sortFragments e2) :=
    hp1.trans (hperm.trans hp2.symm)
  have hn1 : ((sortFragments e1).map Prod.fst).Nodup :=
    ((hp1.map Prod.fst).nodup_iff).mpr hnodup
  have hn2 : ((sortFragments e2).map Prod.fst).Nodup :=
    ((hperm12.map Prod.fst).nodup_iff).mp hn1
  have hstrict : ∀ (s : List (String × Document)), List.Sorted keyLe s →
      (s.map Prod.fst).Nodup → List.Sorted keyLt s := by
    intro s hs hn
    have hne : s.Pairwise (fun a b : String × Document => a.1 ≠ b.1) :=
      List.pairwise_map.mp hn
    have hboth := pairwise_and hs hne
    refine hboth.imp (fun hab => ?_)
    exact lt_of_le_of_ne hab.1 (fun hd => hab.2 (string_data_inj _ _ hd))
  exact List.eq_of_perm_of_sorted hperm12
    (hstrict _ (List.sorted_insertionSort keyLe e1) hn1)
    (hstrict _ (List.sorted_insertionSort keyLe e2) hn2)

/-- C7: loading the same fragment set twice — any two enumerations of the
same path-document pairs with duplicate-free paths, in particular the same
enumeration twice — yields the same Registry and byte-identical rendered
output, because the files are sorted by path before merging. -/
theorem load_render_deterministic (e1 e2 : List (String × Document))
    (hperm : e1.Perm e2) (hnodup : (e1.map Prod.fst).Nodup) :
    loadFragments e1 = loadFragments e2 ∧
    docBytes (render (loadFragments e1)) = docBytes (render (loadFragments e2)) := by
  have hsort := sortFragments_eq_of_perm e1 e2 hperm hnodup
  have hload : loadFragments e1 = loadFragments e2 := by
    unfold loadFragments
    rw [hsort]
  exact ⟨hload, by rw [hload]⟩

/-- The two witness fragment files: 020-override.xml redefines buoy1. -/
def fragmentBase : String × Document :=
  ("010-base.xml",
   { topSettings := [],
     blocks := [{ blockId := "buoy1", typ := "EDDTableFromAsciiFiles",
                  attrs := [("srcUrl", AttrValue.scalar "http://a")] }] })

/-- The overriding witness fragment file. -/
def fragmentOverride : String × Document :=
  ("020-override.xml",
   { topSettings := [],
     blocks := [{ blockId := "buoy1", typ := "EDDTableFromAsciiFiles",
                  attrs := [("srcUrl", AttrValue.scalar "http://b")] }] })

/-- Witness for C7: the two glob enumeration orders of the same two fragment
files produce the same Registry and byte-identical output; the later
fragment in path order wins. -/
theorem load_render_deterministic_witness :
    (List.Perm [fragmentBase, fragmentOverride] [fragmentOverride, fragmentBase]) ∧
    ([fragmentBase, fragmentOverride].map Prod.fst).Nodup ∧
    loadFragments [fragmentBase, fragmentOverride] =
      loadFragments [fragmentOverride, fragmentBase] ∧
    docBytes (render (loadFragments [fragmentBase, fragmentOverride])) =
      docBytes (render (loadFragments [fragmentOverride, fragmentBase])) ∧
    loadFragments [fragmentOverride, fragmentBase] =
      { datasets := [{ datasetId := "buoy1", typ := "EDDTableFromAsciiFiles",
                       attrs := [("srcUrl", AttrValue.scalar "http://b")] }],
        settings := [] } :=
  ⟨List.Perm.swap fragmentOverride fragmentBase [],
   by decide,
   (load_render_deterministic [fragmentBase, fragmentOverride]
      [fragmentOverride, fragmentBase]
      (List.Perm.swap fragmentOverride fragmentBase []) (by decide)).1,
   (load_render_deterministic [fragmentBase, fragmentOverride]
      [fragmentOverride, fragmentBase]
      (List.Perm.swap fragmentOverride fragmentBase []) (by decide)).2,
   by decide⟩
